import Mathlib

/-!
Verification of the `virus` build tool (the Vira package manager).

This file shallowly embeds the program under `src/source/main.go`:
the dependency resolver (`resolveVersion`, `findLibrary`), the artifact
download (`downloadWithProgress` and the fetch-and-cache block of
`compileProject`), the per-unit compilation pipeline
(`compileSourceInContainer`), the diagnostic reporter (`handleError`),
and the control flow of `compileProject` itself, including the `defer`red
sandbox teardown and the `os.Exit(1)` failure paths (in Go, `os.Exit`
terminates the process without running deferred functions, which the
trace semantics below reproduces).

Byte-level Go string operations (`strings.HasPrefix`, slicing `spec[1:]`,
`strings.Replace`, `strings.Split`) are modelled at character level, which
agrees with the byte-level code on ASCII data such as the paths, version
strings and command lines handled here.
-/

set_option linter.unusedVariables false

namespace Virus

/-- `Version{version, url}` from main.go. -/
structure Version where
  version : String
  url : String
deriving Repr, DecidableEq

/-- `Library{name, versions}` from main.go; the version list is ordered
oldest first, so the last element is the latest. -/
structure Library where
  name : String
  versions : List Version
deriving Repr, DecidableEq

/-- `findLibrary` from main.go: first library in the index whose name
matches. -/
def findLibrary (libs : List Library) (name : String) : Option Library :=
  libs.find? (fun l => l.name == name)

/-- Models the downward index loop `for i := len(versions)-1; i >= 0; i--`
of `resolveVersion`: the first element, scanning from the end of the list,
that satisfies `p`. -/
def findFromEnd (versions : List Version) (p : Version → Bool) : Option Version :=
  versions.reverse.find? p

/-- `resolveVersion` from main.go.  `spec == "*"` takes
`versions[len(versions)-1]` (the last element) when the list is non-empty;
a spec starting with `^` scans from the end for a literal textual prefix
match of the remainder; otherwise the spec is matched exactly, also
scanning from the end. -/
def resolveVersion (versions : List Version) (spec : String) : Option Version :=
  if spec = "*" then
    if versions.length > 0 then versions.getLast? else none
  else
    match spec.data with
    | '^' :: pfx => findFromEnd versions (fun v => pfx.isPrefixOf v.version.data)
    | _ => findFromEnd versions (fun v => v.version == spec)

/-- Specification-side formulation of caret resolution: the last element of
`versions` (hence the newest, the list being ordered oldest first) whose
version string has `pfx` as a textual prefix. -/
def lastMatching (pfx : List Char) (versions : List Version) : Option Version :=
  versions.foldl (fun acc v => if pfx.isPrefixOf v.version.data then some v else acc) none

/-- Models `filepath.Join` of two components as used by the program: the
operands are already-clean paths without trailing separators. -/
def pathJoin (a b : String) : String :=
  if a = "" then b else if b = "" then a else a ++ "/" ++ b

def goBaseAux (trimmed : List Char) : List Char :=
  (trimmed.reverse.takeWhile (fun c => ¬ (c = '/'))).reverse

/-- Models `filepath.Base` (on a Unix host): `"."` for the empty path,
otherwise strip trailing separators and keep the last path element,
answering `"/"` when nothing remains. -/
def goBase (path : String) : String :=
  if path = "" then "."
  else
    let trimmed := ((path.data.reverse.dropWhile (fun c => c = '/'))).reverse
    if trimmed = [] then "/" else String.mk (goBaseAux trimmed)

def goExtAux : List Char → List Char → String
  | [], _ => ""
  | c :: rest, acc =>
    if c = '/' then ""
    else if c = '.' then String.mk ('.' :: acc)
    else goExtAux rest (c :: acc)

/-- Models `filepath.Ext`: the suffix of the final path element starting at
its final dot; empty when the final element has no dot. -/
def goExt (path : String) : String :=
  goExtAux path.data.reverse []

/-- Models `strings.ToLower` (exact on the ASCII data handled here). -/
def goToLower (s : String) : String :=
  String.mk (s.data.map Char.toLower)

def replaceFirstAux (new : List Char) : List Char → List Char → List Char
  | [], _ => []
  | c :: rest, pat =>
    if pat.isPrefixOf (c :: rest) then new ++ (c :: rest).drop pat.length
    else c :: replaceFirstAux new rest pat

/-- Models `strings.Replace(s, pat, new, 1)` for a non-empty pattern: the
first occurrence of `pat` in `s`, if any, is replaced by `new`. -/
def replaceFirst (s pat new : String) : String :=
  String.mk (replaceFirstAux new.data s.data pat.data)

def goContainsAux (pat : List Char) : List Char → Bool
  | [] => pat.isEmpty
  | c :: rest => pat.isPrefixOf (c :: rest) || goContainsAux pat rest

/-- Models `strings.Contains` (character-level): does `pat` occur inside
`s`? -/
def goContains (s pat : String) : Bool :=
  goContainsAux pat.data s.data

/-- A flat host file system: a list of (path, content) pairs, most recent
write first. -/
structure FS where
  files : List (String × String)
deriving Repr, DecidableEq

def FS.lookup (fs : FS) (p : String) : Option String :=
  (fs.files.find? (fun e => e.1 == p)).map Prod.snd

/-- Models the `os.Stat` existence test used before downloading. -/
def FS.statExists (fs : FS) (p : String) : Bool :=
  (fs.lookup p).isSome

def FS.write (fs : FS) (p c : String) : FS :=
  ⟨(p, c) :: fs.files⟩

/-- Outcome of one HTTP transfer, as observed by `downloadWithProgress`:
the request itself can fail, `os.Create` can fail, the `io.Copy` can be
interrupted after writing part of the body, or the whole body arrives. -/
inductive Transfer where
  | httpErr
  | createErr
  | copyErr (written : String)
  | ok (content : String)
deriving Repr, DecidableEq

/-- `downloadWithProgress` from main.go: `http.Get`, then `os.Create(target)`
— the canonical destination itself, not a temporary file — then
`io.Copy` streaming the body into that file; the result of `io.Copy` is
returned.  An interrupted copy therefore leaves the partially written file
at `target`; only a failure before `os.Create` leaves the file system
untouched. -/
def downloadWithProgress (t : Transfer) (fs : FS) (target : String) : FS × Bool :=
  match t with
  | .httpErr => (fs, false)
  | .createErr => (fs, false)
  | .copyErr written => (fs.write target written, false)
  | .ok content => (fs.write target content, true)

/-- The `.virus_deps` constant from main.go. -/
def depsDir : String := ".virus_deps"

/-- The destination path used by the dependency fetch block of
`compileProject`: `filepath.Join(root, name, version)` joined with
`filepath.Base(url)`. -/
def destPath (root name version url : String) : String :=
  pathJoin (pathJoin (pathJoin root name) version) (goBase url)

/-- The fetch-and-cache block of `compileProject` (main.go lines 259-272),
as the artifact-store operation `ensure`: build the destination path, and
only when `os.Stat` reports the file missing run `downloadWithProgress`;
a download failure aborts the build (`none`).  On success it returns the
updated file system, the local path, and whether a transfer happened. -/
def ensure (t : Transfer) (fs : FS) (root name version url : String) :
    Option (FS × String × Bool) :=
  let targetFile := destPath root name version url
  if fs.statExists targetFile then some (fs, targetFile, false)
  else
    let r := downloadWithProgress t fs targetFile
    if r.2 then some (r.1, targetFile, true) else none

/-- Models `strings.Split(s, "\n")`: split into lines at each newline;
always non-empty. -/
def splitOnNewline : List Char → List (List Char)
  | [] => [[]]
  | c :: rest =>
    if c = '\n' then [] :: splitOnNewline rest
    else
      match splitOnNewline rest with
      | [] => [[c]]
      | l :: ls => (c :: l) :: ls

/-- Whitespace skipping as performed by `fmt.Sscanf` between items. -/
def skipSpaces (cs : List Char) : List Char :=
  cs.dropWhile (fun c => c.isWhitespace)

/-- Matching of a literal piece of a `fmt.Sscanf` format string: each
character must match exactly; on success the rest of the input is
returned. -/
def matchLit : List Char → List Char → Option (List Char)
  | [], cs => some cs
  | _ :: _, [] => none
  | l :: ls, c :: cs => if c = l then matchLit ls cs else none

def digitsToNat (ds : List Char) : Nat :=
  ds.foldl (fun acc c => acc * 10 + (c.toNat - 48)) 0

/-- The `%d` verb of `fmt.Sscanf`: an optional sign followed by at least
one digit; fails when no digit is present. -/
def readInt (cs : List Char) : Option (Int × List Char) :=
  let (neg, cs₁) :=
    match cs with
    | '-' :: t => (true, t)
    | '+' :: t => (false, t)
    | _ => (false, cs)
  let ds := cs₁.takeWhile (fun c => c.isDigit)
  if ds = [] then none
  else
    let n : Int := Int.ofNat (digitsToNat ds)
    some (if neg then -n else n, cs₁.dropWhile (fun c => c.isDigit))

/-- Models `fmt.Sscanf(s, "line %d, column %d", &line, &column)` with both
variables initialised to 1: literal pieces must match exactly where they
stand, `%d` skips leading whitespace, and a variable keeps its previous
value from the point the scan fails onward. -/
def sscanfLineCol (s : String) : Int × Int :=
  match matchLit "line".data s.data with
  | none => (1, 1)
  | some cs =>
    match readInt (skipSpaces cs) with
    | none => (1, 1)
    | some (l, cs₂) =>
      match matchLit ",".data cs₂ with
      | none => (l, 1)
      | some cs₃ =>
        match matchLit "column".data (skipSpaces cs₃) with
        | none => (l, 1)
        | some cs₄ =>
          match readInt (skipSpaces cs₄) with
          | none => (l, 1)
          | some (c, _) => (l, c)

/-- The command line handed to the external `diagnostic` tool by
`handleError`: `--source`, `--message`, `--line`, `--column` values. -/
structure DiagInvocation where
  source : String
  message : String
  line : Int
  column : Int
deriving Repr, DecidableEq

/-- Result of `cmdDiag.CombinedOutput()`: the tool's combined output and
whether running it returned an error. -/
structure DiagToolResult where
  out : String
  failed : Bool
deriving Repr, DecidableEq

/-- What `handleError` prints at the end: `pterm.Error.Println` of some
text, or `pterm.Info.Println` of some text. -/
inductive Printed where
  | errorLine (s : String)
  | infoLine (s : String)
deriving Repr, DecidableEq

/-- `handleError` from main.go: split the captured stage output into lines,
take the first line as the message, parse `"line %d, column %d"` out of it
when it contains `"line"` (both positions defaulting to 1), invoke the
external diagnostic tool with source/message/line/column, and print the
TOOL's combined output — with `pterm.Error` if running the tool failed,
with `pterm.Info` otherwise.  The behaviour of the tool is passed in as
`tool`.  Returns the invocation handed to the tool and what was printed. -/
def handleError (sourceFile errorMsg : String) (tool : DiagInvocation → DiagToolResult) :
    DiagInvocation × Printed :=
  let lines := splitOnNewline errorMsg.data
  let message := String.mk (lines.headD [])
  let lc := if goContains message "line" then sscanfLineCol message else (1, 1)
  let inv : DiagInvocation := ⟨sourceFile, message, lc.1, lc.2⟩
  let r := tool inv
  (inv, if r.failed then Printed.errorLine r.out else Printed.infoLine r.out)

/-- Result of one `execInContainer` call: combined output, process exit
code, and whether the exec transport itself returned an error. -/
structure ExecOut where
  out : String
  exitCode : Int
  errored : Bool
deriving Repr, DecidableEq

/-- The failure test applied after every exec in main.go:
`if err != nil || exit != 0`. -/
def ExecOut.failed (r : ExecOut) : Bool :=
  r.errored || r.exitCode != 0

/-- Observable build events of `compileProject`: sandbox lifecycle
transitions, execs issued inside the sandbox (with their argv),
diagnostics reported by `handleError`, artifact downloads, process
termination via `os.Exit`, and removal of the temporary build directory. -/
inductive Event where
  | containerCreated
  | containerStarted
  | containerStopped
  | containerRemoved
  | tempDirRemoved
  | execStage (argv : List String)
  | diagnosticReported (sourceFile : String) (output : String)
  | downloadStarted (url : String)
  | exitProcess (code : Nat)
deriving Repr, DecidableEq

/-- `compileSourceInContainer` from main.go as a trace function over an
exec oracle `ex`.  A `.vira` unit runs `preprocessor`, `plsa`, `compiler`
in that order; `.c` runs `gcc -c`; `.cpp` runs `g++ -c`; any other
extension runs nothing and reports success.  The first failing exec stops
the unit: `handleError` is invoked on the stage input path translated back
to the host (`strings.Replace(path, "/work", tempDir, 1)`) with the stage's
combined output, and the function returns an error (`false`). -/
def compileSourceInContainer (ex : List String → ExecOut) (input output : String)
    (includeFlags : List String) (ext tempDir : String) : List Event × Bool :=
  if ext = ".vira" then
    let preOut := input ++ ".pre"
    let cmdPre := ["preprocessor"] ++ includeFlags ++ [input, preOut]
    let r1 := ex cmdPre
    if r1.failed then
      ([.execStage cmdPre,
        .diagnosticReported (replaceFirst input "/work" tempDir) r1.out], false)
    else
      let cmdPlsa := ["plsa", preOut]
      let r2 := ex cmdPlsa
      if r2.failed then
        ([.execStage cmdPre, .execStage cmdPlsa,
          .diagnosticReported (replaceFirst preOut "/work" tempDir) r2.out], false)
      else
        let cmdComp := ["compiler", preOut, output]
        let r3 := ex cmdComp
        if r3.failed then
          ([.execStage cmdPre, .execStage cmdPlsa, .execStage cmdComp,
            .diagnosticReported (replaceFirst preOut "/work" tempDir) r3.out], false)
        else
          ([.execStage cmdPre, .execStage cmdPlsa, .execStage cmdComp], true)
  else if ext = ".c" then
    let cmd := ["gcc", "-c"] ++ includeFlags ++ [input, "-o", output]
    let r := ex cmd
    if r.failed then
      ([.execStage cmd,
        .diagnosticReported (replaceFirst input "/work" tempDir) r.out], false)
    else ([.execStage cmd], true)
  else if ext = ".cpp" then
    let cmd := ["g++", "-c"] ++ includeFlags ++ [input, "-o", output]
    let r := ex cmd
    if r.failed then
      ([.execStage cmd,
        .diagnosticReported (replaceFirst input "/work" tempDir) r.out], false)
    else ([.execStage cmd], true)
  else ([], true)

/-- Environment for one `compileProject` run: the configuration read from
the manifest (package name and the dependency name→spec pairs in the
iteration order Go's map produces), the downloaded index, and the outcomes
of every external effect the function consults, in program order. -/
structure BuildEnv where
  configOk : Bool
  pkgName : String
  deps : List (String × String)
  tempDir : String
  tempDirOk : Bool
  projectFileFound : Bool
  copyProjectOk : Bool
  copySrcOk : Bool
  mkDepsDirOk : Bool
  indexOk : Bool
  libraries : List Library
  connOk : Bool
  pullOk : Bool
  createOk : Bool
  startOk : Bool
  exec : List String → ExecOut
  mkdirDepOk : String → Bool
  cached : String → Bool
  downloadOk : String → Bool
  mkBinOk : Bool
  copyExeOk : Bool

def apkUpdateCmd : List String := ["apk", "update"]

def apkAddCmd : List String := ["apk", "add", "--no-cache", "build-base", "gcc", "g++"]

/-- One iteration of the dependency loop of `compileProject` (main.go lines
248-283): resolve the library and version (any miss prints an error and
exits), create the artifact directory, download unless the target file is
cached, and — only when the lowercased extension is `.vira`/`.c`/`.cpp` —
compile the artifact in the container, appending its object file.  Returns
the events plus `none` on `os.Exit(1)`, or the dependency path and the
optional object file. -/
def processDep (env : BuildEnv) (dep : String × String) :
    List Event × Option (String × Option String) :=
  match findLibrary env.libraries dep.1 with
  | none => ([.exitProcess 1], none)
  | some lib =>
    match resolveVersion lib.versions dep.2 with
    | none => ([.exitProcess 1], none)
    | some ver =>
      let depPath := pathJoin (pathJoin (pathJoin env.tempDir depsDir) dep.1) ver.version
      if env.mkdirDepOk depPath then
        let fileName := goBase ver.url
        let targetFile := pathJoin depPath fileName
        let dl : List Event × Bool :=
          if env.cached targetFile then ([], true)
          else if env.downloadOk ver.url then ([.downloadStarted ver.url], true)
          else ([.downloadStarted ver.url, .exitProcess 1], false)
        if dl.2 then
          let ext := goToLower (goExt fileName)
          let containerInput := replaceFirst targetFile env.tempDir "/work"
          let containerO := replaceFirst depPath env.tempDir "/work" ++ "/lib.o"
          if ext = ".vira" ∨ ext = ".c" ∨ ext = ".cpp" then
            let c := compileSourceInContainer env.exec containerInput containerO [] ext env.tempDir
            if c.2 then (dl.1 ++ c.1, some (depPath, some containerO))
            else (dl.1 ++ c.1 ++ [.exitProcess 1], none)
          else (dl.1, some (depPath, none))
        else (dl.1, none)
      else ([.exitProcess 1], none)

/-- The dependency loop: dependencies processed in order, collecting
dependency paths and object files; the first aborting dependency ends the
run (`os.Exit` returns to no caller, so nothing after it executes). -/
def depsLoop (env : BuildEnv) : List (String × String) →
    List Event × Option (List String × List String)
  | [] => ([], some ([], []))
  | d :: rest =>
    match processDep env d with
    | (evs, none) => (evs, none)
    | (evs, some (depPath, obj)) =>
      match depsLoop env rest with
      | (evs2, none) => (evs ++ evs2, none)
      | (evs2, some (paths, objs)) =>
        (evs ++ evs2, some (depPath :: paths, obj.toList ++ objs))

/-- `compileProject` from main.go as a trace of events.  Every failure path
prints an error and calls `os.Exit(1)`; in Go `os.Exit` terminates the
process WITHOUT running deferred functions, so the deferred
`RemoveAll(tempDir)` (line 175) and the deferred container Stop/Remove
(lines 234-237) run only when the function returns normally — the trace
then ends with Stop, Remove (last registered defer first) and the temp-dir
removal.  The sandbox is connected, pulled, created and started, and the
two `apk` setup execs run, BEFORE the dependency loop resolves or fetches
anything. -/
def compileProject (env : BuildEnv) : List Event :=
  if env.configOk then
    if env.tempDirOk then
      if env.projectFileFound then
        if env.copyProjectOk then
          if env.copySrcOk then
            if env.mkDepsDirOk then
              if env.indexOk then
                if env.connOk then
                  if env.pullOk then
                    if env.createOk then
                      if env.startOk then
                        let rU := env.exec apkUpdateCmd
                        if rU.failed then
                          [.containerCreated, .containerStarted,
                            .execStage apkUpdateCmd, .exitProcess 1]
                        else
                          let rA := env.exec apkAddCmd
                          if rA.failed then
                            [.containerCreated, .containerStarted,
                              .execStage apkUpdateCmd, .execStage apkAddCmd,
                              .exitProcess 1]
                          else
                            let pre := [Event.containerCreated, Event.containerStarted,
                              Event.execStage apkUpdateCmd, Event.execStage apkAddCmd]
                            match depsLoop env env.deps with
                            | (evs, none) => pre ++ evs
                            | (evs, some (depPaths, objs)) =>
                              let includeFlags := depPaths.map
                                (fun p => "-I" ++ replaceFirst p env.tempDir "/work")
                              let m := compileSourceInContainer env.exec
                                "/work/src/main.vira" "/work/main.o" includeFlags
                                ".vira" env.tempDir
                              if m.2 then
                                let objectFiles := objs ++ ["/work/main.o"]
                                let outputExe := "/work/bin/" ++ env.pkgName
                                let cmdLink := ["gcc"] ++ objectFiles ++ ["-o", outputExe]
                                let rL := env.exec cmdLink
                                if rL.failed then
                                  pre ++ evs ++ m.1 ++ [.execStage cmdLink, .exitProcess 1]
                                else
                                  if env.mkBinOk then
                                    if env.copyExeOk then
                                      pre ++ evs ++ m.1 ++ [.execStage cmdLink,
                                        .containerStopped, .containerRemoved,
                                        .tempDirRemoved]
                                    else
                                      pre ++ evs ++ m.1 ++ [.execStage cmdLink,
                                        .exitProcess 1]
                                  else
                                    pre ++ evs ++ m.1 ++ [.execStage cmdLink,
                                      .exitProcess 1]
                              else pre ++ evs ++ m.1 ++ [.exitProcess 1]
                      else [.containerCreated, .exitProcess 1]
                    else [.exitProcess 1]
                  else [.exitProcess 1]
                else [.exitProcess 1]
              else [.exitProcess 1]
            else [.exitProcess 1]
          else [.exitProcess 1]
        else [.exitProcess 1]
      else [.exitProcess 1]
    else [.exitProcess 1]
  else [.exitProcess 1]

/-- A concrete environment whose only dependency is a cached `.vira`
artifact whose `preprocessor` stage fails; every other external effect
succeeds. -/
def envPreFail : BuildEnv where
  configOk := true
  pkgName := "myproject"
  deps := [("mylib", "*")]
  tempDir := "/tmp/vb"
  tempDirOk := true
  projectFileFound := true
  copyProjectOk := true
  copySrcOk := true
  mkDepsDirOk := true
  indexOk := true
  libraries := [⟨"mylib", [⟨"1.0.0", "http://host/lib.vira"⟩]⟩]
  connOk := true
  pullOk := true
  createOk := true
  startOk := true
  exec := fun argv =>
    if argv.headD "" = "preprocessor" then ⟨"boom", 1, false⟩ else ⟨"", 0, false⟩
  mkdirDepOk := fun _ => true
  cached := fun _ => true
  downloadOk := fun _ => true
  mkBinOk := true
  copyExeOk := true

/-- The same environment with every exec succeeding: the build completes. -/
def envAllOk : BuildEnv :=
  { envPreFail with exec := fun _ => ⟨"", 0, false⟩ }

/-- A concrete environment whose single dependency names a library missing
from the index; every sandbox-related effect succeeds. -/
def envLibMissing : BuildEnv :=
  { envPreFail with
      deps := [("ghost", "*")]
      exec := fun _ => ⟨"", 0, false⟩ }

/-- A concrete environment with one unrecognized (`.txt`) cached artifact
and every external effect succeeding. -/
def envTxtDep : BuildEnv :=
  { envPreFail with
      libraries := [⟨"mylib", [⟨"1.0.0", "http://host/data.txt"⟩]⟩]
      exec := fun _ => ⟨"", 0, false⟩ }

/-- How the `Transfer` outcome of `downloadWithProgress` arises when the
remote server answers the `http.Get` with a response whose body then
streams completely: `http.Get` returns a non-nil error only on transport
failure, and `downloadWithProgress` never reads `resp.StatusCode`, so a
response with ANY status code — 404 included — proceeds identically: its
body becomes the stream that `io.Copy` publishes at the target and nil is
returned.  The status code is ignored, exactly as in the code. -/
def responseTransfer (statusCode : Nat) (body : String) : Transfer :=
  Transfer.ok body

/-- The `envTxtDep` build with the artifact not yet cached, so the
dependency loop actually runs `downloadWithProgress`; the download
returns nil error (as it does for any answered request, a 404 response
included). -/
def env404 : BuildEnv :=
  { envTxtDep with cached := fun _ => false }

/-- The effects preceding the dependency loop all succeed: manifest load,
temp dir, project file, copies, deps dir, index download, runtime
connection, image pull, container create and start, and the two `apk`
setup execs. -/
def setupOk (env : BuildEnv) : Prop :=
  env.configOk = true ∧ env.tempDirOk = true ∧ env.projectFileFound = true
  ∧ env.copyProjectOk = true ∧ env.copySrcOk = true ∧ env.mkDepsDirOk = true
  ∧ env.indexOk = true ∧ env.connOk = true ∧ env.pullOk = true
  ∧ env.createOk = true ∧ env.startOk = true
  ∧ (env.exec apkUpdateCmd).failed = false
  ∧ (env.exec apkAddCmd).failed = false

theorem foldl_keepLast (p : Version → Bool) (vs : List Version) (acc : Option Version) :
    vs.foldl (fun a v => if p v then some v else a) acc
      = ((vs.reverse.find? p).elim acc some) := by
  induction vs generalizing acc with
  | nil => simp
  | cons a l ih =>
    simp only [List.foldl_cons, List.reverse_cons, List.find?_append, ih]
    cases hfind : l.reverse.find? p with
    | some x => simp [hfind]
    | none =>
      cases hp : p a with
      | true => simp [hfind, List.find?, hp]
      | false => simp [hfind, List.find?, hp]

theorem caret_spec_ne_star (pfx : List Char) : String.mk ('^' :: pfx) ≠ "*" := by
  intro h
  have hd : '^' :: pfx = "*".data := congrArg String.data h
  simp at hd

theorem resolveVersion_caret_eq (versions : List Version) (pfx : List Char) :
    resolveVersion versions (String.mk ('^' :: pfx))
      = findFromEnd versions (fun v => pfx.isPrefixOf v.version.data) := by
  unfold resolveVersion
  rw [if_neg (caret_spec_ne_star pfx)]
  rfl

/-- C5: resolving the spec `"*"` returns exactly the last element of the
version list, and returns NotFound (`none`) if and only if the list is
empty. -/
theorem resolveVersion_star_spec :
    (∀ (l : List Version) (v : Version), resolveVersion (l ++ [v]) "*" = some v)
    ∧ (∀ versions : List Version,
        resolveVersion versions "*" = none ↔ versions = []) := by
  constructor
  · intro l v
    simp [resolveVersion, List.getLast?_concat]
  · intro versions
    cases versions with
    | nil => simp [resolveVersion]
    | cons a l =>
      simp only [resolveVersion, if_pos rfl]
      have hne : (a :: l).getLast? ≠ none := by
        rcases List.eq_nil_or_concat (a :: l) with hnil | ⟨L, b, hLb⟩
        · simp at hnil
        · rw [hLb, List.concat_eq_append, List.getLast?_concat]
          simp
      simp [hne]

/-- C6: for a spec beginning with `^`, resolution treats the remainder as a
literal textual prefix, scanning the list newest to oldest — equivalently it
returns the last (newest) element whose version string has that prefix —
with NotFound exactly when no version matches; in particular over
`["1.0.0","1.2.0","2.0.0"]` the spec `"^1."` resolves to `"1.2.0"`. -/
theorem resolveVersion_caret_spec :
    (∀ (versions : List Version) (pfx : List Char),
        resolveVersion versions (String.mk ('^' :: pfx)) = lastMatching pfx versions)
    ∧ (∀ (versions : List Version) (pfx : List Char),
        resolveVersion versions (String.mk ('^' :: pfx)) = none
          ↔ ∀ v ∈ versions, pfx.isPrefixOf v.version.data = false)
    ∧ resolveVersion
        [⟨"1.0.0", "u1"⟩, ⟨"1.2.0", "u2"⟩, ⟨"2.0.0", "u3"⟩] "^1."
        = some ⟨"1.2.0", "u2"⟩ := by
  have hmain : ∀ (versions : List Version) (pfx : List Char),
      resolveVersion versions (String.mk ('^' :: pfx)) = lastMatching pfx versions := by
    intro versions pfx
    rw [resolveVersion_caret_eq, lastMatching,
      foldl_keepLast (fun v => pfx.isPrefixOf v.version.data) versions none]
    cases h : versions.reverse.find? (fun v => pfx.isPrefixOf v.version.data) with
    | some x => simp [findFromEnd, h]
    | none => simp [findFromEnd, h]
  refine ⟨hmain, ?_, ?_⟩
  · intro versions pfx
    rw [resolveVersion_caret_eq]
    unfold findFromEnd
    rw [List.find?_eq_none]
    simp only [List.mem_reverse, Bool.not_eq_true]
  · decide

/-- C9: resolving the spec `"^"` (caret with empty remainder) over a
non-empty version list returns the same version as resolving `"*"`, namely
the last element: the empty prefix matches every version string. -/
theorem resolveVersion_caret_empty_eq_star :
    ∀ (l : List Version) (v : Version),
      resolveVersion (l ++ [v]) "^" = resolveVersion (l ++ [v]) "*"
      ∧ resolveVersion (l ++ [v]) "^" = some v := by
  intro l v
  have hcaret : resolveVersion (l ++ [v]) "^" = some v := by
    have h := resolveVersion_caret_eq (l ++ [v]) []
    have hstr : String.mk ['^'] = "^" := rfl
    rw [hstr] at h
    rw [h]
    unfold findFromEnd
    simp [List.find?]
  have hstar : resolveVersion (l ++ [v]) "*" = some v := by
    simp [resolveVersion, List.getLast?_concat]
  rw [hcaret, hstar]
  exact ⟨rfl, rfl⟩

/-- C3: refuted — an artifact fetch that fails partway does leave a file at
the canonical destination path: `downloadWithProgress` opens the canonical
target with `os.Create` and streams into it directly (no temporary file, no
rename), so an interrupted copy leaves the partially written content
visible at the canonical path. -/
theorem downloadWithProgress_not_atomic_cex :
    (downloadWithProgress (.copyErr "PARTIAL") ⟨[]⟩
        "/w/.virus_deps/mylib/1.0.0/lib.vira").2 = false
    ∧ FS.statExists
        (downloadWithProgress (.copyErr "PARTIAL") ⟨[]⟩
          "/w/.virus_deps/mylib/1.0.0/lib.vira").1
        "/w/.virus_deps/mylib/1.0.0/lib.vira" = true
    ∧ (downloadWithProgress (.copyErr "PARTIAL") ⟨[]⟩
        "/w/.virus_deps/mylib/1.0.0/lib.vira").1.lookup
        "/w/.virus_deps/mylib/1.0.0/lib.vira" = some "PARTIAL" := by
  decide

/-- C3 (amended): a network failure before the response body is opened
leaves the file system untouched, but the content is streamed directly into
a file created at the canonical destination path, so an interrupted
transfer leaves the partially written file visible at that path; the error
is reported to the caller in both cases. -/
theorem downloadWithProgress_direct_write :
    ∀ (fs : FS) (target written : String),
      downloadWithProgress .httpErr fs target = (fs, false)
      ∧ (downloadWithProgress (.copyErr written) fs target).2 = false
      ∧ (downloadWithProgress (.copyErr written) fs target).1.lookup target
          = some written := by
  intro fs target written
  refine ⟨rfl, rfl, ?_⟩
  simp [downloadWithProgress, FS.write, FS.lookup, List.find?]

/-- C7: refuted as stated — the destination path is not a function of name
and version alone: it also depends on the final path component of the URL
(`filepath.Base(version.URL)`), so identical name and version with
different artifact URLs yield different local paths. -/
theorem ensure_path_depends_on_url_cex :
    (ensure (.ok "X") ⟨[]⟩ ".virus_deps" "mylib" "1.0.0"
        "http://host/a.vira").map (fun r => r.2.1)
    ≠ (ensure (.ok "X") ⟨[]⟩ ".virus_deps" "mylib" "1.0.0"
        "http://host/b.vira").map (fun r => r.2.1) := by
  decide

/-- C7 (amended): the destination path is computed deterministically from
name, version and the final path component of the URL; if a file already
exists there the operation is a no-op with no transfer; hence two `ensure`
calls with identical name, version and url perform exactly one transfer,
and the second returns the same local path whose content is unchanged. -/
theorem ensure_idempotent_per_key (fs : FS) (root name version url content : String)
    (h : fs.statExists (destPath root name version url) = false) :
    ensure (.ok content) fs root name version url
      = some (fs.write (destPath root name version url) content,
          destPath root name version url, true)
    ∧ (∀ t : Transfer,
        ensure t (fs.write (destPath root name version url) content) root name version url
          = some (fs.write (destPath root name version url) content,
              destPath root name version url, false))
    ∧ (fs.write (destPath root name version url) content).lookup
        (destPath root name version url) = some content := by
  refine ⟨?_, ?_, ?_⟩
  · simp [ensure, h, downloadWithProgress]
  · intro t
    simp [ensure, FS.statExists, FS.lookup, FS.write, List.find?]
  · simp [FS.lookup, FS.write, List.find?]

theorem ensure_idempotent_per_key_witness :
    FS.statExists ⟨[]⟩ (destPath ".virus_deps" "mylib" "1.0.0" "http://h/l.vira") = false
    ∧ ensure (.ok "DATA") ⟨[]⟩ ".virus_deps" "mylib" "1.0.0" "http://h/l.vira"
        = some (FS.write ⟨[]⟩
            (destPath ".virus_deps" "mylib" "1.0.0" "http://h/l.vira") "DATA",
            destPath ".virus_deps" "mylib" "1.0.0" "http://h/l.vira", true) :=
  ⟨by decide,
    (ensure_idempotent_per_key ⟨[]⟩ ".virus_deps" "mylib" "1.0.0" "http://h/l.vira"
      "DATA" (by decide)).1⟩

theorem splitOnNewline_ne_nil (cs : List Char) : splitOnNewline cs ≠ [] := by
  cases cs with
  | nil => simp [splitOnNewline]
  | cons c rest =>
    by_cases h : c = '\n'
    · simp [splitOnNewline, h]
    · simp only [splitOnNewline, if_neg h]
      cases hs : splitOnNewline rest with
      | nil => simp
      | cons l ls => simp

theorem splitOnNewline_headD (cs : List Char) :
    (splitOnNewline cs).headD [] = cs.takeWhile (fun c => ¬ (c = '\n')) := by
  induction cs with
  | nil => simp [splitOnNewline]
  | cons c rest ih =>
    by_cases h : c = '\n'
    · simp [splitOnNewline, h, List.takeWhile_cons]
    · simp only [splitOnNewline, if_neg h]
      cases hs : splitOnNewline rest with
      | nil => exact absurd hs (splitOnNewline_ne_nil rest)
      | cons l ls =>
        rw [hs] at ih
        simp only [List.headD_cons, List.takeWhile_cons, decide_not] at ih ⊢
        simp [h, ih]

/-- C8: refuted on the fallback clause — when the external diagnostic tool
fails to run, `handleError` prints the TOOL's combined output (here empty),
not the raw stage output verbatim: on stage output
`"unexpected token\ndetails"` with a tool that fails producing no output,
the printed text is `""`, not the stage output. -/
theorem handleError_fallback_cex :
    (handleError "/p/main.vira" "unexpected token\ndetails"
        (fun _ => ⟨"", true⟩)).2 = Printed.errorLine ""
    ∧ ¬ (("" : String) = "unexpected token\ndetails")
    ∧ ¬ ((handleError "/p/main.vira" "unexpected token\ndetails"
        (fun _ => ⟨"", true⟩)).2
          = Printed.errorLine "unexpected token\ndetails") := by
  decide

/-- C8 (amended): the reporter takes the first line of the captured output
as the message, parses a `"line L, column C"` pattern from it when the
message contains `"line"` and otherwise leaves line 1, column 1, invokes
the external diagnostic-formatting tool with that message and position, and
prints the TOOL's own combined output — on the error channel when the tool
failed to run (not the raw stage output), on the info channel otherwise.
The parse recovers e.g. line 3 and column 7 from
`"line 3, column 7: unexpected token"`. -/
theorem handleError_reporting_behavior :
    ∀ (sourceFile errorMsg : String) (tool : DiagInvocation → DiagToolResult),
      (handleError sourceFile errorMsg tool).1.source = sourceFile
      ∧ (handleError sourceFile errorMsg tool).1.message
          = String.mk (errorMsg.data.takeWhile (fun c => ¬ (c = '\n')))
      ∧ (goContains (handleError sourceFile errorMsg tool).1.message "line" = false →
          (handleError sourceFile errorMsg tool).1.line = 1
          ∧ (handleError sourceFile errorMsg tool).1.column = 1)
      ∧ ((tool (handleError sourceFile errorMsg tool).1).failed = true →
          (handleError sourceFile errorMsg tool).2
            = Printed.errorLine (tool (handleError sourceFile errorMsg tool).1).out)
      ∧ ((tool (handleError sourceFile errorMsg tool).1).failed = false →
          (handleError sourceFile errorMsg tool).2
            = Printed.infoLine (tool (handleError sourceFile errorMsg tool).1).out)
      ∧ (handleError sourceFile "line 3, column 7: unexpected token" tool).1.line = 3
      ∧ (handleError sourceFile "line 3, column 7: unexpected token" tool).1.column = 7 := by
  intro sourceFile errorMsg tool
  refine ⟨rfl, ?_, ?_, ?_, ?_, rfl, rfl⟩
  · show String.mk ((splitOnNewline errorMsg.data).headD []) = _
    rw [splitOnNewline_headD]
  · intro h
    simp only [handleError] at h ⊢
    rw [h]
    exact ⟨rfl, rfl⟩
  · intro h
    simp only [handleError] at h ⊢
    rw [h]
    simp
  · intro h
    simp only [handleError] at h ⊢
    rw [h]
    simp

theorem handleError_reporting_behavior_witness :
    goContains (handleError "/src/main.vira" "boom\nrest"
        (fun _ => ⟨"OUT", true⟩)).1.message "line" = false
    ∧ (handleError "/src/main.vira" "boom\nrest"
        (fun _ => ⟨"OUT", true⟩)).1.line = 1
    ∧ (handleError "/src/main.vira" "boom\nrest"
        (fun _ => ⟨"OUT", true⟩)).1.column = 1
    ∧ (handleError "/src/main.vira" "boom\nrest"
        (fun _ => ⟨"OUT", true⟩)).2 = Printed.errorLine "OUT" := by
  have h := handleError_reporting_behavior "/src/main.vira" "boom\nrest"
    (fun _ => ⟨"OUT", true⟩)
  exact ⟨by decide, (h.2.2.1 (by decide)).1, (h.2.2.1 (by decide)).2,
    h.2.2.2.1 (by decide)⟩

/-- C1: the code violates the claim — every failure path of
`compileProject` calls `os.Exit(1)`, which does not run deferred
functions, so for a build whose session reached Created and whose first
compile stage then fails, the deferred Stop/Remove teardown runs zero
times, not once.  (On the normal-return path of a fully successful build
it does run exactly once, confirming the deferred teardown is the intended
cleanup.) -/
theorem teardown_skipped_after_create_on_failure :
    Event.containerCreated ∈ compileProject envPreFail
    ∧ (compileProject envPreFail).count Event.containerStopped = 0
    ∧ (compileProject envPreFail).count Event.containerRemoved = 0
    ∧ Event.exitProcess 1 ∈ compileProject envPreFail
    ∧ (compileProject envAllOk).count Event.containerStopped = 1
    ∧ (compileProject envAllOk).count Event.containerRemoved = 1 := by
  decide

/-- C2: refuted — a build whose dependency resolution fails does see a
sandbox session created: in `envLibMissing` the only dependency names a
library absent from the index, yet the trace contains the session-creation
event (the container is created, started, and the `apk` setup execs run
before the dependency loop), followed by the abort. -/
theorem session_created_despite_resolution_failure_cex :
    findLibrary envLibMissing.libraries "ghost" = none
    ∧ envLibMissing.deps = [("ghost", "*")]
    ∧ Event.containerCreated ∈ compileProject envLibMissing
    ∧ Event.containerStarted ∈ compileProject envLibMissing
    ∧ Event.exitProcess 1 ∈ compileProject envLibMissing := by
  decide

/-- C2 (amended): a build whose dependency resolution fails — library not
found OR version not found — or whose artifact download fails at transport
level (`http.Get`/`os.Create`/`io.Copy` error) aborts immediately with
exit 1, no compile stage executed and no further dependency processed, but
only AFTER the sandbox session has been created and started and the two
`apk` setup execs have run: sandbox creation precedes dependency
resolution, so a session is created even for such builds (and, by C1, is
not torn down).  A dependency URL answering 404, however, is NOT a
download failure in this code: `http.Get` returns nil error for any
answered request and `resp.StatusCode` is never consulted, so the 404
body is published at the canonical artifact path, nil is returned, and
the build proceeds (here through to the link and teardown). -/
theorem resolution_or_fetch_failure_aborts_after_session
    (env : BuildEnv) (n s : String) (rest : List (String × String))
    (hsetup : setupOk env) (hdeps : env.deps = (n, s) :: rest) :
    (findLibrary env.libraries n = none →
      compileProject env
        = [Event.containerCreated, Event.containerStarted,
           Event.execStage apkUpdateCmd, Event.execStage apkAddCmd,
           Event.exitProcess 1])
    ∧ (∀ lib,
        findLibrary env.libraries n = some lib →
        resolveVersion lib.versions s = none →
        compileProject env
          = [Event.containerCreated, Event.containerStarted,
             Event.execStage apkUpdateCmd, Event.execStage apkAddCmd,
             Event.exitProcess 1])
    ∧ (∀ lib ver,
        findLibrary env.libraries n = some lib →
        resolveVersion lib.versions s = some ver →
        env.mkdirDepOk
          (pathJoin (pathJoin (pathJoin env.tempDir depsDir) n) ver.version) = true →
        env.cached
          (pathJoin (pathJoin (pathJoin (pathJoin env.tempDir depsDir) n) ver.version)
            (goBase ver.url)) = false →
        env.downloadOk ver.url = false →
        compileProject env
          = [Event.containerCreated, Event.containerStarted,
             Event.execStage apkUpdateCmd, Event.execStage apkAddCmd,
             Event.downloadStarted ver.url, Event.exitProcess 1])
    ∧ (∀ (statusCode : Nat) (body : String) (fs : FS) (target : String),
        downloadWithProgress (responseTransfer statusCode body) fs target
          = (fs.write target body, true))
    ∧ downloadWithProgress (responseTransfer 404 "Not Found") ⟨[]⟩
        "/w/.virus_deps/mylib/1.0.0/data.txt"
        = (FS.write ⟨[]⟩ "/w/.virus_deps/mylib/1.0.0/data.txt" "Not Found", true)
    ∧ Event.downloadStarted "http://host/data.txt" ∈ compileProject env404
    ∧ Event.exitProcess 1 ∉ compileProject env404
    ∧ Event.containerStopped ∈ compileProject env404 := by
  obtain ⟨h1, h2, h3, h4, h5, h6, h7, h8, h9, h10, h11, h12, h13⟩ := hsetup
  refine ⟨?_, ?_, ?_, ?_, by decide, by decide, by decide, by decide⟩
  · intro hfind
    simp [compileProject, h1, h2, h3, h4, h5, h6, h7, h8, h9, h10, h11, h12, h13,
      hdeps, depsLoop, processDep, hfind]
  · intro lib hfind hres
    simp [compileProject, h1, h2, h3, h4, h5, h6, h7, h8, h9, h10, h11, h12, h13,
      hdeps, depsLoop, processDep, hfind, hres]
  · intro lib ver hfind hres hmk hcache hdl
    simp [compileProject, h1, h2, h3, h4, h5, h6, h7, h8, h9, h10, h11, h12, h13,
      hdeps, depsLoop, processDep, hfind, hres, hmk, hcache, hdl]
  · intro statusCode body fs target
    rfl

theorem resolution_or_fetch_failure_aborts_after_session_witness :
    setupOk envLibMissing
    ∧ findLibrary envLibMissing.libraries "ghost" = none
    ∧ compileProject envLibMissing
        = [Event.containerCreated, Event.containerStarted,
           Event.execStage apkUpdateCmd, Event.execStage apkAddCmd,
           Event.exitProcess 1] := by
  have h := resolution_or_fetch_failure_aborts_after_session envLibMissing
    "ghost" "*" [] ⟨rfl, rfl, rfl, rfl, rfl, rfl, rfl, rfl, rfl, rfl, rfl,
      by decide, by decide⟩ rfl
  exact ⟨⟨rfl, rfl, rfl, rfl, rfl, rfl, rfl, rfl, rfl, rfl, rfl,
    by decide, by decide⟩, by decide, h.1 (by decide)⟩

/-- C4: a failing stage stops its translation unit — a failing
`preprocessor` exec means no `plsa` or `compiler` exec for that unit, a
failing `plsa` exec means no `compiler` exec — the failing stage's raw
output (with its input path translated back to the host) goes to the
diagnostic reporter, and at build level a unit failure ends the whole run
with exit 1: nothing is executed for any remaining dependency, no main
unit, no link, and the trace ends at the diagnostic and the exit. -/
theorem stage_failure_aborts_unit_and_build
    (ex : List String → ExecOut) (input output tempDir : String)
    (includeFlags : List String)
    (env : BuildEnv) (n s : String) (rest : List (String × String)) :
    ((ex (["preprocessor"] ++ includeFlags ++ [input, input ++ ".pre"])).failed = true →
      compileSourceInContainer ex input output includeFlags ".vira" tempDir
        = ([Event.execStage (["preprocessor"] ++ includeFlags ++ [input, input ++ ".pre"]),
            Event.diagnosticReported (replaceFirst input "/work" tempDir)
              (ex (["preprocessor"] ++ includeFlags ++ [input, input ++ ".pre"])).out],
           false))
    ∧ ((ex (["preprocessor"] ++ includeFlags ++ [input, input ++ ".pre"])).failed = false →
        (ex ["plsa", input ++ ".pre"]).failed = true →
      compileSourceInContainer ex input output includeFlags ".vira" tempDir
        = ([Event.execStage (["preprocessor"] ++ includeFlags ++ [input, input ++ ".pre"]),
            Event.execStage ["plsa", input ++ ".pre"],
            Event.diagnosticReported (replaceFirst (input ++ ".pre") "/work" tempDir)
              (ex ["plsa", input ++ ".pre"]).out],
           false))
    ∧ (setupOk env → env.deps = (n, s) :: rest →
       ∀ lib ver,
        findLibrary env.libraries n = some lib →
        resolveVersion lib.versions s = some ver →
        env.mkdirDepOk
          (pathJoin (pathJoin (pathJoin env.tempDir depsDir) n) ver.version) = true →
        env.cached
          (pathJoin (pathJoin (pathJoin (pathJoin env.tempDir depsDir) n) ver.version)
            (goBase ver.url)) = true →
        goToLower (goExt (goBase ver.url)) = ".vira" →
        (env.exec
          ["preprocessor",
           replaceFirst
             (pathJoin (pathJoin (pathJoin (pathJoin env.tempDir depsDir) n) ver.version)
               (goBase ver.url)) env.tempDir "/work",
           replaceFirst
             (pathJoin (pathJoin (pathJoin (pathJoin env.tempDir depsDir) n) ver.version)
               (goBase ver.url)) env.tempDir "/work" ++ ".pre"]).failed = true →
        compileProject env
          = [Event.containerCreated, Event.containerStarted,
             Event.execStage apkUpdateCmd, Event.execStage apkAddCmd,
             Event.execStage
               ["preprocessor",
                replaceFirst
                  (pathJoin (pathJoin (pathJoin (pathJoin env.tempDir depsDir) n)
                    ver.version) (goBase ver.url)) env.tempDir "/work",
                replaceFirst
                  (pathJoin (pathJoin (pathJoin (pathJoin env.tempDir depsDir) n)
                    ver.version) (goBase ver.url)) env.tempDir "/work" ++ ".pre"],
             Event.diagnosticReported
               (replaceFirst
                 (replaceFirst
                   (pathJoin (pathJoin (pathJoin (pathJoin env.tempDir depsDir) n)
                     ver.version) (goBase ver.url)) env.tempDir "/work")
                 "/work" env.tempDir)
               (env.exec
                 ["preprocessor",
                  replaceFirst
                    (pathJoin (pathJoin (pathJoin (pathJoin env.tempDir depsDir) n)
                      ver.version) (goBase ver.url)) env.tempDir "/work",
                  replaceFirst
                    (pathJoin (pathJoin (pathJoin (pathJoin env.tempDir depsDir) n)
                      ver.version) (goBase ver.url)) env.tempDir "/work" ++ ".pre"]).out,
             Event.exitProcess 1]) := by
  refine ⟨?_, ?_, ?_⟩
  · intro hfail
    simp only [List.cons_append, List.nil_append] at hfail
    simp [compileSourceInContainer, hfail]
  · intro hok hfail
    simp only [List.cons_append, List.nil_append] at hok
    simp [compileSourceInContainer, hok, hfail]
  · intro hsetup hdeps lib ver hfind hres hmk hcache hext hfail
    obtain ⟨h1, h2, h3, h4, h5, h6, h7, h8, h9, h10, h11, h12, h13⟩ := hsetup
    simp [compileProject, h1, h2, h3, h4, h5, h6, h7, h8, h9, h10, h11, h12, h13,
      hdeps, depsLoop, processDep, hfind, hres, hmk, hcache, hext,
      compileSourceInContainer, hfail]

theorem stage_failure_aborts_unit_and_build_witness :
    (envPreFail.exec
        ["preprocessor", "/work/.virus_deps/mylib/1.0.0/lib.vira",
         "/work/.virus_deps/mylib/1.0.0/lib.vira.pre"]).failed = true
    ∧ compileProject envPreFail
        = [Event.containerCreated, Event.containerStarted,
           Event.execStage apkUpdateCmd, Event.execStage apkAddCmd,
           Event.execStage
             ["preprocessor", "/work/.virus_deps/mylib/1.0.0/lib.vira",
              "/work/.virus_deps/mylib/1.0.0/lib.vira.pre"],
           Event.diagnosticReported "/tmp/vb/.virus_deps/mylib/1.0.0/lib.vira" "boom",
           Event.exitProcess 1] := by
  have h := (stage_failure_aborts_unit_and_build envPreFail.exec "" "" "" []
    envPreFail "mylib" "*" []).2.2
    ⟨rfl, rfl, rfl, rfl, rfl, rfl, rfl, rfl, rfl, rfl, rfl, by decide, by decide⟩
    rfl ⟨"mylib", [⟨"1.0.0", "http://host/lib.vira"⟩]⟩ ⟨"1.0.0", "http://host/lib.vira"⟩
    (by decide) (by decide) (by decide) (by decide) (by decide) (by decide)
  exact ⟨by decide, h⟩

/-- C10: a dependency artifact whose lowercased extension is none of
`.vira`, `.c`, `.cpp` is silently skipped — `compileSourceInContainer`
returns success having executed nothing, and in the build the dependency
contributes no object file to the link command and produces no exec, no
download failure and no diagnostic: with one cached `.txt`-style artifact
the link argv is exactly `gcc /work/main.o -o <exe>`, and the build runs
to completion (its dependency path is still handed to the main unit as an
include flag). -/
theorem unrecognized_extension_skipped
    (ex : List String → ExecOut) (input output ext tempDir : String)
    (includeFlags : List String)
    (env : BuildEnv) (n s : String) :
    (ext ≠ ".vira" → ext ≠ ".c" → ext ≠ ".cpp" →
      compileSourceInContainer ex input output includeFlags ext tempDir = ([], true))
    ∧ (setupOk env → env.deps = [(n, s)] →
       ∀ lib ver,
        findLibrary env.libraries n = some lib →
        resolveVersion lib.versions s = some ver →
        env.mkdirDepOk
          (pathJoin (pathJoin (pathJoin env.tempDir depsDir) n) ver.version) = true →
        env.cached
          (pathJoin (pathJoin (pathJoin (pathJoin env.tempDir depsDir) n) ver.version)
            (goBase ver.url)) = true →
        goToLower (goExt (goBase ver.url)) ≠ ".vira" →
        goToLower (goExt (goBase ver.url)) ≠ ".c" →
        goToLower (goExt (goBase ver.url)) ≠ ".cpp" →
        (∀ c, (env.exec c).failed = false) →
        env.mkBinOk = true →
        env.copyExeOk = true →
        compileProject env
          = [Event.containerCreated, Event.containerStarted,
             Event.execStage apkUpdateCmd, Event.execStage apkAddCmd,
             Event.execStage
               ["preprocessor",
                "-I" ++ replaceFirst
                  (pathJoin (pathJoin (pathJoin env.tempDir depsDir) n) ver.version)
                  env.tempDir "/work",
                "/work/src/main.vira", "/work/src/main.vira.pre"],
             Event.execStage ["plsa", "/work/src/main.vira.pre"],
             Event.execStage ["compiler", "/work/src/main.vira.pre", "/work/main.o"],
             Event.execStage ["gcc", "/work/main.o", "-o", "/work/bin/" ++ env.pkgName],
             Event.containerStopped, Event.containerRemoved,
             Event.tempDirRemoved]) := by
  constructor
  · intro hva hc hcpp
    simp [compileSourceInContainer, hva, hc, hcpp]
  · intro hsetup hdeps lib ver hfind hres hmk hcache hext1 hext2 hext3 hexec hbin hcopy
    obtain ⟨h1, h2, h3, h4, h5, h6, h7, h8, h9, h10, h11, h12, h13⟩ := hsetup
    simp [compileProject, h1, h2, h3, h4, h5, h6, h7, h8, h9, h10, h11, h12, h13,
      hdeps, depsLoop, processDep, hfind, hres, hmk, hcache, hext1, hext2, hext3,
      compileSourceInContainer, hexec, hbin, hcopy]

theorem unrecognized_extension_skipped_witness :
    goToLower (goExt (goBase "http://host/data.txt")) = ".txt"
    ∧ compileProject envTxtDep
        = [Event.containerCreated, Event.containerStarted,
           Event.execStage apkUpdateCmd, Event.execStage apkAddCmd,
           Event.execStage
             ["preprocessor", "-I/work/.virus_deps/mylib/1.0.0",
              "/work/src/main.vira", "/work/src/main.vira.pre"],
           Event.execStage ["plsa", "/work/src/main.vira.pre"],
           Event.execStage ["compiler", "/work/src/main.vira.pre", "/work/main.o"],
           Event.execStage ["gcc", "/work/main.o", "-o", "/work/bin/myproject"],
           Event.containerStopped, Event.containerRemoved,
           Event.tempDirRemoved] := by
  have h := (unrecognized_extension_skipped envTxtDep.exec "" "" "" "" []
    envTxtDep "mylib" "*").2
    ⟨rfl, rfl, rfl, rfl, rfl, rfl, rfl, rfl, rfl, rfl, rfl, by decide, by decide⟩
    rfl ⟨"mylib", [⟨"1.0.0", "http://host/data.txt"⟩]⟩ ⟨"1.0.0", "http://host/data.txt"⟩
    (by decide) (by decide) (by decide) (by decide) (by decide) (by decide) (by decide)
    (fun c => rfl) rfl rfl
  exact ⟨by decide, h⟩

end Virus
